import Mathlib

/-!
Verification of the noise-generator core (`src/App.jsx`): the seven noise
filters, the chunked generation orchestrator `generateNoise`, the peak
normalizer `normalizeSamples`, and the RIFF/WAVE encoder `createWavFile`.

Sample values are modelled as rationals (the JS code computes with
floating-point numbers; the algebraic structure of every claim is about the
exact arithmetic of the recurrences).  A random draw `u` stands for one
`Math.random()` result, so every filter forms its white sample as
`(u * 2 - 1) * 0.5`, exactly as the source does.  The random source is an
unbounded stream `ℕ → ℚ`, consumed strictly in order, one draw per sample.
-/

/-- `SAMPLE_RATE = 44100` (CD quality), a module-level constant in the source. -/
def SAMPLE_RATE : ℕ := 44100

/-- `CHANNELS = 1` (mono), a module-level constant in the source. -/
def CHANNELS : ℕ := 1

/-- `CHUNK_SIZE = 441000` — 10 seconds worth of samples, from `generateNoise`. -/
def CHUNK_SIZE : ℕ := 441000

/-- Run a per-sample recurrence over a list of random draws, threading the
filter's local state and collecting the produced samples.  This is the shape
of every `for (let i = 0; i < length; i++)` loop in the filter functions:
`step` is the loop body, the state is the loop's accumulator variables. -/
def runFilter {σ : Type} (step : σ → ℚ → ℚ × σ) : List ℚ → σ → List ℚ × σ
  | [], s => ([], s)
  | u :: us, s =>
    let r := step s u
    let rest := runFilter step us r.2
    (r.1 :: rest.1, rest.2)

/-- The JS `state` object threaded through `generateNoise`'s chunk loop: a
dynamically-typed record whose fields are present or absent depending on which
filter wrote it (`null` = all fields absent).  Filters read fields with
`state?.field ?? 0`, modelled by `Option.getD _ 0`. -/
structure NoiseState where
  b0 : Option ℚ
  b1 : Option ℚ
  b2 : Option ℚ
  b3 : Option ℚ
  b4 : Option ℚ
  b5 : Option ℚ
  b6 : Option ℚ
  lastSample : Option ℚ
  lastLastSample : Option ℚ
  filterState : Option ℚ

/-- The initial `let state = null` of `generateNoise`. -/
def NoiseState.null : NoiseState :=
  ⟨none, none, none, none, none, none, none, none, none, none⟩

/-- `generateWhiteNoise`: `samples[i] = (Math.random() * 2 - 1) * 0.5`. -/
def generateWhiteNoise (draws : List ℚ) : List ℚ :=
  draws.map (fun u => (u * 2 - 1) * 0.5)

/-- The seven local accumulator variables `b0..b6` of `generatePinkNoise`. -/
structure PinkLocals where
  b0 : ℚ
  b1 : ℚ
  b2 : ℚ
  b3 : ℚ
  b4 : ℚ
  b5 : ℚ
  b6 : ℚ

/-- Loop body of `generatePinkNoise` (Paul Kellet's method): update the six
poles, emit the sum with the previous step's `b6`, scale by `0.11`, then
refresh `b6`. -/
def pinkStep (s : PinkLocals) (u : ℚ) : ℚ × PinkLocals :=
  let white := (u * 2 - 1) * 0.5
  let b0 := 0.99886 * s.b0 + white * 0.0555179
  let b1 := 0.99332 * s.b1 + white * 0.0750759
  let b2 := 0.96900 * s.b2 + white * 0.1538520
  let b3 := 0.86650 * s.b3 + white * 0.3104856
  let b4 := 0.55000 * s.b4 + white * 0.5329522
  let b5 := -0.7616 * s.b5 - white * 0.0168980
  let out := (b0 + b1 + b2 + b3 + b4 + b5 + s.b6 + white * 0.5362) * 0.11
  (out, ⟨b0, b1, b2, b3, b4, b5, white * 0.115926⟩)

/-- `generatePinkNoise(length, state = null)`: read `b0..b6` from the state
object (`state?.bk ?? 0`), run the loop, return `{ samples, state: {b0..b6} }`. -/
def generatePinkNoise (draws : List ℚ) (state : NoiseState) : List ℚ × NoiseState :=
  let r := runFilter pinkStep draws
    ⟨state.b0.getD 0, state.b1.getD 0, state.b2.getD 0, state.b3.getD 0,
     state.b4.getD 0, state.b5.getD 0, state.b6.getD 0⟩
  (r.1, ⟨some r.2.b0, some r.2.b1, some r.2.b2, some r.2.b3, some r.2.b4,
         some r.2.b5, some r.2.b6, none, none, none⟩)

/-- Loop body of `generateBrownNoise`:
`lastSample = (lastSample + white * 0.02) * 0.99; samples[i] = lastSample * 3.5`. -/
def brownStep (lastSample : ℚ) (u : ℚ) : ℚ × ℚ :=
  let white := (u * 2 - 1) * 0.5
  let l := (lastSample + white * 0.02) * 0.99
  (l * 3.5, l)

/-- `generateBrownNoise(length, state = null)`. -/
def generateBrownNoise (draws : List ℚ) (state : NoiseState) : List ℚ × NoiseState :=
  let r := runFilter brownStep draws (state.lastSample.getD 0)
  (r.1, ⟨none, none, none, none, none, none, none, some r.2, none, none⟩)

/-- Loop body of `generateBlueNoise`:
`samples[i] = (white - lastSample) * 0.5; lastSample = white`. -/
def blueStep (lastSample : ℚ) (u : ℚ) : ℚ × ℚ :=
  let white := (u * 2 - 1) * 0.5
  ((white - lastSample) * 0.5, white)

/-- `generateBlueNoise(length, state = null)`. -/
def generateBlueNoise (draws : List ℚ) (state : NoiseState) : List ℚ × NoiseState :=
  let r := runFilter blueStep draws (state.lastSample.getD 0)
  (r.1, ⟨none, none, none, none, none, none, none, some r.2, none, none⟩)

/-- The two accumulator variables of `generateVioletNoise`. -/
structure VioletLocals where
  lastSample : ℚ
  lastLastSample : ℚ

/-- Loop body of `generateVioletNoise`:
`samples[i] = (white - 2 * lastSample + lastLastSample) * 0.3`,
then shift the two remembered draws. -/
def violetStep (s : VioletLocals) (u : ℚ) : ℚ × VioletLocals :=
  let white := (u * 2 - 1) * 0.5
  ((white - 2 * s.lastSample + s.lastLastSample) * 0.3, ⟨white, s.lastSample⟩)

/-- `generateVioletNoise(length, state = null)`. -/
def generateVioletNoise (draws : List ℚ) (state : NoiseState) : List ℚ × NoiseState :=
  let r := runFilter violetStep draws
    ⟨state.lastSample.getD 0, state.lastLastSample.getD 0⟩
  (r.1, ⟨none, none, none, none, none, none, none,
         some r.2.lastSample, some r.2.lastLastSample, none⟩)

/-- The two blend states of `generateGreyNoise`'s second pass. -/
structure GreyLocals where
  state1 : ℚ
  state2 : ℚ

/-- Loop body of `generateGreyNoise`'s filtering pass:
`state1 = state1 * 0.99 + x * 0.01; state2 = state2 * 0.95 + x * 0.05;
filtered[i] = (state1 * 0.4 + state2 * 0.3 + x * 0.3) * 1.2`. -/
def greyStep (s : GreyLocals) (x : ℚ) : ℚ × GreyLocals :=
  let s1 := s.state1 * 0.99 + x * 0.01
  let s2 := s.state2 * 0.95 + x * 0.05
  ((s1 * 0.4 + s2 * 0.3 + x * 0.3) * 1.2, ⟨s1, s2⟩)

/-- `generateGreyNoise(length)`: first pass fills
`samples[i] = (white * 0.7) * 0.6`, second pass applies the two-pole blend
starting from `state1 = 0, state2 = 0`.  No state parameter exists. -/
def generateGreyNoise (draws : List ℚ) : List ℚ :=
  let samples := draws.map (fun u => ((u * 2 - 1) * 0.5) * 0.7 * 0.6)
  (runFilter greyStep samples ⟨0, 0⟩).1

/-- The two accumulator variables of `generateOrangeNoise`. -/
structure OrangeLocals where
  lastSample : ℚ
  filterState : ℚ

/-- Loop body of `generateOrangeNoise`:
`filterState = filterState * 0.992 + white * 0.008;
lastSample = (lastSample + filterState * 0.015) * 0.995;
samples[i] = lastSample * 2.8`. -/
def orangeStep (s : OrangeLocals) (u : ℚ) : ℚ × OrangeLocals :=
  let white := (u * 2 - 1) * 0.5
  let fs := s.filterState * 0.992 + white * 0.008
  let ls := (s.lastSample + fs * 0.015) * 0.995
  (ls * 2.8, ⟨ls, fs⟩)

/-- `generateOrangeNoise(length, state = null)`. -/
def generateOrangeNoise (draws : List ℚ) (state : NoiseState) : List ℚ × NoiseState :=
  let r := runFilter orangeStep draws
    ⟨state.lastSample.getD 0, state.filterState.getD 0⟩
  (r.1, ⟨none, none, none, none, none, none, none,
         some r.2.lastSample, none, some r.2.filterState⟩)

/-- `normalizeSamples`' first loop: running maximum of absolute values,
`if (abs > max) max = abs`, starting from `max = 0`. -/
def maxAbs (samples : List ℚ) : ℚ :=
  samples.foldl (fun m x => if |x| > m then |x| else m) 0

/-- `normalizeSamples`: if the maximum absolute value exceeds `0.99`,
rescale every sample by `scale = 0.99 / max`; otherwise return unchanged. -/
def normalizeSamples (samples : List ℚ) : List ℚ :=
  let max := maxAbs samples
  if max > 0.99 then samples.map (fun x => x * (0.99 / max)) else samples

/-- Truncation toward zero, the integer conversion JS `DataView.setInt16`
applies to a non-integral number. -/
def ratTrunc (q : ℚ) : ℤ :=
  if q < 0 then ⌈q⌉ else ⌊q⌋

/-- The per-sample 16-bit conversion in `createWavFile`'s data loop:
`sample = Math.max(-1, Math.min(1, samples[i]))` then
`intSample = sample < 0 ? sample * 0x8000 : sample * 0x7FFF`,
truncated to an integer by `setInt16`. -/
def convSample (q : ℚ) : ℤ :=
  let sample := max (-1) (min 1 q)
  ratTrunc (if sample < 0 then sample * 0x8000 else sample * 0x7FFF)

/-- Little-endian bytes of a 16-bit unsigned write (`setUint16(_, v, true)`;
values ≥ 2^16 wrap, as in JS). -/
def u16le (v : ℕ) : List ℕ :=
  [v % 256, v / 256 % 256]

/-- Little-endian bytes of a 32-bit unsigned write (`setUint32(_, v, true)`). -/
def u32le (v : ℕ) : List ℕ :=
  [v % 256, v / 256 % 256, v / 65536 % 256, v / 16777216 % 256]

/-- Little-endian bytes of `setInt16(_, v, true)`: two's complement mod 2^16. -/
def i16le (v : ℤ) : List ℕ :=
  u16le (v % 65536).toNat

/-- `writeString`: one byte per character code. -/
def strBytes (s : String) : List ℕ :=
  s.toList.map Char.toNat

/-- One encoded PCM sample: clamp, asymmetric scale, truncate, write LE. -/
def encodeSample (q : ℚ) : List ℕ :=
  i16le (convSample q)

/-- `createWavFile(samples, sampleRate)`: the 44-byte RIFF/WAVE header
followed by the 16-bit little-endian PCM data, written in the order of the
source's `writeString`/`setUint32`/`setUint16`/`setInt16` calls. -/
def createWavFile (samples : List ℚ) (sampleRate : ℕ) : List ℕ :=
  strBytes "RIFF" ++ u32le (36 + samples.length * 2) ++ strBytes "WAVE" ++
  strBytes "fmt " ++ u32le 16 ++ u16le 1 ++ u16le CHANNELS ++
  u32le sampleRate ++ u32le (sampleRate * CHANNELS * 2) ++
  u16le (CHANNELS * 2) ++ u16le 16 ++
  strBytes "data" ++ u32le (samples.length * 2) ++
  (samples.map encodeSample).flatten

/-- The two ways `generateNoise` can throw: the `default` branch of the
noise-type switch (`throw new Error('Unknown noise type')`), and the
`RangeError` of `new Float32Array(totalSamples)` on a negative length. -/
inductive GenError
  | unknownNoiseType
  | rangeError
  deriving DecidableEq, Repr

/-- One iteration body of `generateNoise`'s chunk loop: the `switch
(noiseType)` that produces this chunk's samples and the state for the next
chunk; `none` is the `default` branch that throws. -/
def chunkOf (t : String) (ds : List ℚ) (s : NoiseState) :
    Option (List ℚ × NoiseState) :=
  if t = "white" then some (generateWhiteNoise ds, s)
  else if t = "pink" then some (generatePinkNoise ds s)
  else if t = "brown" then some (generateBrownNoise ds s)
  else if t = "blue" then some (generateBlueNoise ds s)
  else if t = "violet" then some (generateVioletNoise ds s)
  else if t = "grey" then some (generateGreyNoise ds, s)
  else if t = "orange" then some (generateOrangeNoise ds s)
  else none

/-- `generateNoise`'s chunk loop, generalized over the chunk size: `n` is the
number of remaining chunk iterations, each iteration consumes the next
`csize` draws (`chunkLength = min(CHUNK_SIZE, totalSamples - start)` is
exactly `List.take`), writes its samples at the next offset (concatenation),
and threads the returned state. -/
def runChunksWith (t : String) (csize : ℕ) :
    ℕ → List ℚ → NoiseState → Except GenError (List ℚ)
  | 0, _, _ => Except.ok []
  | n + 1, ds, s =>
    match chunkOf t (ds.take csize) s with
    | none => Except.error GenError.unknownNoiseType
    | some (ys, s1) =>
      (runChunksWith t csize n (ds.drop csize) s1).map (fun zs => ys ++ zs)

/-- The sample-production part of `generateNoise`:
`totalSamples = Math.floor(SAMPLE_RATE * durationSeconds)` (a negative value
makes `new Float32Array(totalSamples)` throw `RangeError`),
`chunks = Math.ceil(totalSamples / CHUNK_SIZE)`, then the chunk loop starting
from `state = null`. -/
def generateSamples (t : String) (durationSeconds : ℚ) (draws : ℕ → ℚ) :
    Except GenError (List ℚ) :=
  let totalSamples : ℤ := ⌊(SAMPLE_RATE : ℚ) * durationSeconds⌋
  if totalSamples < 0 then Except.error GenError.rangeError
  else
    let total := totalSamples.toNat
    let chunks := (total + CHUNK_SIZE - 1) / CHUNK_SIZE
    runChunksWith t CHUNK_SIZE chunks ((List.range total).map draws) NoiseState.null

/-- The full `generateNoise` pipeline up to the byte buffer handed to the
download step: generate in chunks, normalize, encode as WAV. -/
def generateNoise (t : String) (durationSeconds : ℚ) (draws : ℕ → ℚ) :
    Except GenError (List ℕ) :=
  (generateSamples t durationSeconds draws).map
    (fun samples => createWavFile (normalizeSamples samples) SAMPLE_RATE)

/-- Observable resource events of one `generateNoise` run, in program order:
allocation of the full sample buffer, completion of a chunk, and the two
throws.  Used to settle where the noise-type check happens relative to the
buffer allocation. -/
inductive GenEvent
  | allocSamples (n : ℕ)
  | chunkGenerated
  | throwUnknown
  | throwRange
  deriving DecidableEq, Repr

/-- Whether the noise-type switch has a case for `t` (the source's seven
`case` labels, in order). -/
def isKnownType (t : String) : Bool :=
  t == "white" || t == "pink" || t == "brown" || t == "blue" ||
  t == "violet" || t == "grey" || t == "orange"

/-- Event trace of the chunk loop: each iteration either generates a chunk
(known type) or throws from the switch's `default` branch and stops. -/
def eventLoop (t : String) : ℕ → List GenEvent
  | 0 => []
  | n + 1 =>
    if isKnownType t then GenEvent.chunkGenerated :: eventLoop t n
    else [GenEvent.throwUnknown]

/-- Event trace of `generateNoise`: `new Float32Array(totalSamples)` throws
on a negative length, otherwise the full buffer is allocated before the chunk
loop runs. -/
def generateNoiseEvents (t : String) (durationSeconds : ℚ) : List GenEvent :=
  let totalSamples : ℤ := ⌊(SAMPLE_RATE : ℚ) * durationSeconds⌋
  if totalSamples < 0 then [GenEvent.throwRange]
  else
    GenEvent.allocSamples totalSamples.toNat ::
      eventLoop t ((totalSamples.toNat + CHUNK_SIZE - 1) / CHUNK_SIZE)

/-- A single unchunked filter invocation from the null state: the samples of
one `switch` dispatch over the whole draw list. -/
def singleCall (t : String) (ds : List ℚ) : List ℚ :=
  match chunkOf t ds NoiseState.null with
  | some r => r.1
  | none => []

/-! ## Basic properties of `runFilter` -/

lemma runFilter_nil {σ : Type} (step : σ → ℚ → ℚ × σ) (s : σ) :
    runFilter step [] s = ([], s) := rfl

lemma runFilter_cons {σ : Type} (step : σ → ℚ → ℚ × σ) (u : ℚ) (us : List ℚ) (s : σ) :
    runFilter step (u :: us) s =
      ((step s u).1 :: (runFilter step us (step s u).2).1,
       (runFilter step us (step s u).2).2) := rfl

lemma runFilter_append {σ : Type} (step : σ → ℚ → ℚ × σ) (l1 l2 : List ℚ) (s : σ) :
    runFilter step (l1 ++ l2) s =
      ((runFilter step l1 s).1 ++ (runFilter step l2 (runFilter step l1 s).2).1,
       (runFilter step l2 (runFilter step l1 s).2).2) := by
  induction l1 generalizing s with
  | nil => simp [runFilter_nil]
  | cons u us ih => simp [runFilter_cons, ih]

lemma runFilter_length {σ : Type} (step : σ → ℚ → ℚ × σ) (us : List ℚ) (s : σ) :
    (runFilter step us s).1.length = us.length := by
  induction us generalizing s with
  | nil => rfl
  | cons u us ih => simp [runFilter_cons, ih]

/-- Pointwise-equal steps (up to a reindexing of the draw) give equal runs. -/
lemma runFilter_map_eq {σ : Type} (step1 step2 : σ → ℚ → ℚ × σ) (f : ℚ → ℚ)
    (h : ∀ s u, step1 s u = step2 s (f u)) :
    ∀ (us : List ℚ) (s : σ), runFilter step1 us s = runFilter step2 (us.map f) s := by
  intro us
  induction us with
  | nil => intro s; rfl
  | cons u us ih => intro s; simp [runFilter_cons, ← h, ih]

/-! ## The chunk loop runs each known filter with lossless state threading -/

/-- The splitting property a `switch` case needs for chunked generation to be
equivalent to a single call: the empty chunk is neutral on samples, and one
call on a concatenation equals two calls with the state threaded through. -/
def ChunkFilter (t : String) : Prop :=
  (∀ s : NoiseState, ∃ s2, chunkOf t [] s = some ([], s2)) ∧
  (∀ (l1 l2 : List ℚ) (s : NoiseState), ∃ y1 s1 y2 s2,
    chunkOf t l1 s = some (y1, s1) ∧ chunkOf t l2 s1 = some (y2, s2) ∧
    chunkOf t (l1 ++ l2) s = some (y1 ++ y2, s2))

lemma chunkOf_white (ds : List ℚ) (s : NoiseState) :
    chunkOf "white" ds s = some (generateWhiteNoise ds, s) := rfl

lemma chunkOf_pink (ds : List ℚ) (s : NoiseState) :
    chunkOf "pink" ds s = some (generatePinkNoise ds s) := rfl

lemma chunkOf_brown (ds : List ℚ) (s : NoiseState) :
    chunkOf "brown" ds s = some (generateBrownNoise ds s) := rfl

lemma chunkOf_blue (ds : List ℚ) (s : NoiseState) :
    chunkOf "blue" ds s = some (generateBlueNoise ds s) := rfl

lemma chunkOf_violet (ds : List ℚ) (s : NoiseState) :
    chunkOf "violet" ds s = some (generateVioletNoise ds s) := rfl

lemma chunkOf_grey (ds : List ℚ) (s : NoiseState) :
    chunkOf "grey" ds s = some (generateGreyNoise ds, s) := rfl

lemma chunkOf_orange (ds : List ℚ) (s : NoiseState) :
    chunkOf "orange" ds s = some (generateOrangeNoise ds s) := rfl

lemma chunkFilter_white : ChunkFilter "white" := by
  constructor
  · intro s; exact ⟨s, rfl⟩
  · intro l1 l2 s
    refine ⟨generateWhiteNoise l1, s, generateWhiteNoise l2, s, rfl, rfl, ?_⟩
    simp [chunkOf_white, generateWhiteNoise]

lemma chunkFilter_pink : ChunkFilter "pink" := by
  constructor
  · intro s; exact ⟨_, rfl⟩
  · intro l1 l2 s
    refine ⟨(generatePinkNoise l1 s).1, (generatePinkNoise l1 s).2,
      (generatePinkNoise l2 (generatePinkNoise l1 s).2).1,
      (generatePinkNoise l2 (generatePinkNoise l1 s).2).2, rfl, rfl, ?_⟩
    simp only [chunkOf_pink, generatePinkNoise, Option.getD_some, runFilter_append]

lemma chunkFilter_brown : ChunkFilter "brown" := by
  constructor
  · intro s; exact ⟨_, rfl⟩
  · intro l1 l2 s
    refine ⟨(generateBrownNoise l1 s).1, (generateBrownNoise l1 s).2,
      (generateBrownNoise l2 (generateBrownNoise l1 s).2).1,
      (generateBrownNoise l2 (generateBrownNoise l1 s).2).2, rfl, rfl, ?_⟩
    simp only [chunkOf_brown, generateBrownNoise, Option.getD_some, runFilter_append]

lemma chunkFilter_blue : ChunkFilter "blue" := by
  constructor
  · intro s; exact ⟨_, rfl⟩
  · intro l1 l2 s
    refine ⟨(generateBlueNoise l1 s).1, (generateBlueNoise l1 s).2,
      (generateBlueNoise l2 (generateBlueNoise l1 s).2).1,
      (generateBlueNoise l2 (generateBlueNoise l1 s).2).2, rfl, rfl, ?_⟩
    simp only [chunkOf_blue, generateBlueNoise, Option.getD_some, runFilter_append]

lemma chunkFilter_violet : ChunkFilter "violet" := by
  constructor
  · intro s; exact ⟨_, rfl⟩
  · intro l1 l2 s
    refine ⟨(generateVioletNoise l1 s).1, (generateVioletNoise l1 s).2,
      (generateVioletNoise l2 (generateVioletNoise l1 s).2).1,
      (generateVioletNoise l2 (generateVioletNoise l1 s).2).2, rfl, rfl, ?_⟩
    simp only [chunkOf_violet, generateVioletNoise, Option.getD_some, runFilter_append]

lemma chunkFilter_orange : ChunkFilter "orange" := by
  constructor
  · intro s; exact ⟨_, rfl⟩
  · intro l1 l2 s
    refine ⟨(generateOrangeNoise l1 s).1, (generateOrangeNoise l1 s).2,
      (generateOrangeNoise l2 (generateOrangeNoise l1 s).2).1,
      (generateOrangeNoise l2 (generateOrangeNoise l1 s).2).2, rfl, rfl, ?_⟩
    simp only [chunkOf_orange, generateOrangeNoise, Option.getD_some, runFilter_append]

/-- Core chunked-equivalence lemma: for a filter with the splitting property,
running the chunk loop over any chunk size reproduces the single call. -/
lemma runChunksWith_eq_of_chunkFilter (t : String) (hcf : ChunkFilter t)
    (csize : ℕ) :
    ∀ (n : ℕ) (ds : List ℚ) (s : NoiseState), ds.length ≤ csize * n →
      ∀ y s2, chunkOf t ds s = some (y, s2) →
        runChunksWith t csize n ds s = Except.ok y := by
  intro n
  induction n with
  | zero =>
    intro ds s hlen y s2 hchunk
    have hds : ds = [] := List.eq_nil_of_length_eq_zero (by omega)
    subst hds
    obtain ⟨s3, hnil⟩ := hcf.1 s
    rw [hnil] at hchunk
    simp only [Option.some.injEq, Prod.mk.injEq] at hchunk
    simp [runChunksWith, ← hchunk.1]
  | succ n ih =>
    intro ds s hlen y s2 hchunk
    obtain ⟨y1, s1, y2, s2x, h1, h2, h12⟩ := hcf.2 (ds.take csize) (ds.drop csize) s
    rw [List.take_append_drop] at h12
    rw [h12] at hchunk
    simp only [Option.some.injEq, Prod.mk.injEq] at hchunk
    have hlen2 : (ds.drop csize).length ≤ csize * n := by
      simp only [List.length_drop]
      have hmul : csize * (n + 1) = csize * n + csize := Nat.mul_succ csize n
      omega
    have := ih (ds.drop csize) s1 hlen2 y2 s2x h2
    simp only [runChunksWith, h1, this, Except.map]
    rw [← hchunk.1]

lemma runFilter_congr {σ : Type} (step1 step2 : σ → ℚ → ℚ × σ)
    (h : ∀ s u, step1 s u = step2 s u) :
    ∀ (us : List ℚ) (s : σ), runFilter step1 us s = runFilter step2 us s := by
  intro us
  induction us with
  | nil => intro s; rfl
  | cons u us ih => intro s; simp [runFilter_cons, h, ih]

/-- The six noise types whose state is threaded through the chunk loop (all
supported types except Grey, which carries no state across chunks). -/
def chunkEquivTypes : List String :=
  ["white", "pink", "brown", "blue", "violet", "orange"]

lemma total_le_chunks (total : ℕ) :
    total ≤ CHUNK_SIZE * ((total + CHUNK_SIZE - 1) / CHUNK_SIZE) := by
  simp only [CHUNK_SIZE]
  omega

/-- C1: For White, Pink, Brown, Blue, Violet, and Orange noise, generating a
run split into chunks of any fixed size, with filter state threaded between
chunk calls starting from the null state, produces exactly the sample
sequence of a single unchunked call on the same draws; in particular the
orchestrator `generateSamples` (chunk size 441000) equals one unchunked
filter call over the whole requested span. -/
theorem noise_chunked_generation_equivalence :
    ∀ t ∈ chunkEquivTypes,
      (∀ (csize n : ℕ) (ds : List ℚ), ds.length ≤ csize * n →
        runChunksWith t csize n ds NoiseState.null = Except.ok (singleCall t ds)) ∧
      (∀ d : ℚ, 0 ≤ d → ∀ draws : ℕ → ℚ,
        generateSamples t d draws =
          Except.ok (singleCall t
            ((List.range (⌊(SAMPLE_RATE : ℚ) * d⌋).toNat).map draws))) := by
  intro t ht
  have hcf : ChunkFilter t := by
    simp only [chunkEquivTypes, List.mem_cons, List.not_mem_nil, or_false] at ht
    rcases ht with rfl | rfl | rfl | rfl | rfl | rfl
    exacts [chunkFilter_white, chunkFilter_pink, chunkFilter_brown,
      chunkFilter_blue, chunkFilter_violet, chunkFilter_orange]
  have hgen : ∀ (csize n : ℕ) (ds : List ℚ), ds.length ≤ csize * n →
      runChunksWith t csize n ds NoiseState.null = Except.ok (singleCall t ds) := by
    intro csize n ds hlen
    obtain ⟨y1, s1, y2, s2, h1, h2, h12⟩ := hcf.2 ds [] NoiseState.null
    have hsingle : singleCall t ds = y1 := by simp [singleCall, h1]
    rw [hsingle]
    exact runChunksWith_eq_of_chunkFilter t hcf csize n ds NoiseState.null hlen y1 s1 h1
  refine ⟨hgen, ?_⟩
  intro d hd draws
  have hpos : (0 : ℚ) ≤ (SAMPLE_RATE : ℚ) * d :=
    mul_nonneg (by positivity) hd
  have h0 : ¬ (⌊(SAMPLE_RATE : ℚ) * d⌋ < 0) := not_lt.2 (Int.floor_nonneg.2 hpos)
  unfold generateSamples
  rw [if_neg h0]
  apply hgen
  simp only [List.length_map, List.length_range]
  exact total_le_chunks _

/-- Witness for C1 at concrete inputs: type `pink`, chunk size 1 over two
samples, and an orchestrator run of two samples. -/
theorem noise_chunked_generation_equivalence_witness :
    ("pink" ∈ chunkEquivTypes) ∧ (([1/2, 1/3] : List ℚ).length ≤ 1 * 2) ∧
    ((0 : ℚ) ≤ 2 / 44100) ∧
    runChunksWith "pink" 1 2 [1/2, 1/3] NoiseState.null =
      Except.ok (singleCall "pink" [1/2, 1/3]) ∧
    generateSamples "pink" (2 / 44100) (fun _ => 1/3) =
      Except.ok (singleCall "pink"
        ((List.range (⌊(SAMPLE_RATE : ℚ) * (2 / 44100)⌋).toNat).map (fun _ => 1/3))) :=
  ⟨by decide, by decide, by norm_num,
   (noise_chunked_generation_equivalence "pink" (by decide)).1 1 2 [1/2, 1/3] (by decide),
   (noise_chunked_generation_equivalence "pink" (by decide)).2 (2 / 44100)
     (by norm_num) (fun _ => 1/3)⟩

/-! ## C8: the Pink filter against Paul Kellet's recurrence as the spec states it -/

/-- Specification form of the Pink recurrence, following the spec's words:
`white = next * 0.5` where `next` is the random source's `[-1, 1]` draw, six
poles updated uniformly as `bk = ak * bk + white * ck` with the fixed
coefficient pairs, output `(Σ bk) + white * 0.5362` (using the previous
step's `b6`) scaled by `0.11`, and `b6` refreshed afterwards. -/
def pinkSpecStep (s : PinkLocals) (next : ℚ) : ℚ × PinkLocals :=
  let white := next * 0.5
  let b0 := 0.99886 * s.b0 + white * 0.0555179
  let b1 := 0.99332 * s.b1 + white * 0.0750759
  let b2 := 0.96900 * s.b2 + white * 0.1538520
  let b3 := 0.86650 * s.b3 + white * 0.3104856
  let b4 := 0.55000 * s.b4 + white * 0.5329522
  let b5 := -0.7616 * s.b5 + white * -0.0168980
  let out := (b0 + b1 + b2 + b3 + b4 + b5 + s.b6 + white * 0.5362) * 0.11
  (out, ⟨b0, b1, b2, b3, b4, b5, white * 0.115926⟩)

/-- The spec's Pink filter: the Kellett recurrence run over a list of
random-source draws with a given 7-pole state. -/
def pinkKellett (nexts : List ℚ) (s : PinkLocals) : List ℚ × PinkLocals :=
  runFilter pinkSpecStep nexts s

lemma pinkStep_eq_spec (s : PinkLocals) (u : ℚ) :
    pinkStep s u = pinkSpecStep s (u * 2 - 1) := by
  simp only [pinkStep, pinkSpecStep, Prod.mk.injEq, PinkLocals.mk.injEq]
  refine ⟨by ring_nf, by ring_nf, by ring_nf, by ring_nf, by ring_nf, by ring_nf, by ring_nf, by ring_nf⟩

/-- C8: `generatePinkNoise` implements exactly Paul Kellet's 7-pole
recurrence: on draws `u` (so random-source values `u * 2 - 1`), its samples
and its returned state are those of the Kellett spec recurrence started from
the incoming state's pole values, with all 7 final pole values written back
into the returned state. -/
theorem pink_matches_kellett_spec :
    ∀ (us : List ℚ) (state : NoiseState),
      generatePinkNoise us state =
        ((pinkKellett (us.map (fun u => u * 2 - 1))
            ⟨state.b0.getD 0, state.b1.getD 0, state.b2.getD 0, state.b3.getD 0,
             state.b4.getD 0, state.b5.getD 0, state.b6.getD 0⟩).1,
         ⟨some (pinkKellett (us.map (fun u => u * 2 - 1))
            ⟨state.b0.getD 0, state.b1.getD 0, state.b2.getD 0, state.b3.getD 0,
             state.b4.getD 0, state.b5.getD 0, state.b6.getD 0⟩).2.b0,
          some (pinkKellett (us.map (fun u => u * 2 - 1))
            ⟨state.b0.getD 0, state.b1.getD 0, state.b2.getD 0, state.b3.getD 0,
             state.b4.getD 0, state.b5.getD 0, state.b6.getD 0⟩).2.b1,
          some (pinkKellett (us.map (fun u => u * 2 - 1))
            ⟨state.b0.getD 0, state.b1.getD 0, state.b2.getD 0, state.b3.getD 0,
             state.b4.getD 0, state.b5.getD 0, state.b6.getD 0⟩).2.b2,
          some (pinkKellett (us.map (fun u => u * 2 - 1))
            ⟨state.b0.getD 0, state.b1.getD 0, state.b2.getD 0, state.b3.getD 0,
             state.b4.getD 0, state.b5.getD 0, state.b6.getD 0⟩).2.b3,
          some (pinkKellett (us.map (fun u => u * 2 - 1))
            ⟨state.b0.getD 0, state.b1.getD 0, state.b2.getD 0, state.b3.getD 0,
             state.b4.getD 0, state.b5.getD 0, state.b6.getD 0⟩).2.b4,
          some (pinkKellett (us.map (fun u => u * 2 - 1))
            ⟨state.b0.getD 0, state.b1.getD 0, state.b2.getD 0, state.b3.getD 0,
             state.b4.getD 0, state.b5.getD 0, state.b6.getD 0⟩).2.b5,
          some (pinkKellett (us.map (fun u => u * 2 - 1))
            ⟨state.b0.getD 0, state.b1.getD 0, state.b2.getD 0, state.b3.getD 0,
             state.b4.getD 0, state.b5.getD 0, state.b6.getD 0⟩).2.b6,
          none, none, none⟩) := by
  intro us state
  have hrun := runFilter_map_eq pinkStep pinkSpecStep (fun u => u * 2 - 1)
    pinkStep_eq_spec us
    ⟨state.b0.getD 0, state.b1.getD 0, state.b2.getD 0, state.b3.getD 0,
     state.b4.getD 0, state.b5.getD 0, state.b6.getD 0⟩
  simp only [generatePinkNoise, pinkKellett, hrun]

/-! ## C9: the Grey filter and its per-chunk state reset -/

/-- Specification form of the Grey blend step, following the spec's words:
`state1 += (x - state1) * 0.01`, `state2 += (x - state2) * 0.05`,
`out = (0.4 * state1 + 0.3 * state2 + 0.3 * x) * 1.2`. -/
def greySpecStep (s : GreyLocals) (x : ℚ) : ℚ × GreyLocals :=
  let s1 := s.state1 + (x - s.state1) * 0.01
  let s2 := s.state2 + (x - s.state2) * 0.05
  ((0.4 * s1 + 0.3 * s2 + 0.3 * x) * 1.2, ⟨s1, s2⟩)

/-- The spec's Grey filter: scale each white draw (`next * 0.5`) by
`0.7 * 0.6`, then apply the two-pole blend from zero states in one pass. -/
def greySpecNoise (nexts : List ℚ) : List ℚ :=
  (runFilter greySpecStep (nexts.map (fun r => (r * 0.5) * (0.7 * 0.6))) ⟨0, 0⟩).1

/-- Chunk-wise Grey generation: every chunk is an independent
`generateGreyNoise` call, restarting the blend states at zero. -/
def greyChunked (csize : ℕ) : ℕ → List ℚ → List ℚ
  | 0, _ => []
  | n + 1, ds => generateGreyNoise (ds.take csize) ++ greyChunked csize n (ds.drop csize)

lemma greyStep_eq_spec (s : GreyLocals) (x : ℚ) :
    greyStep s x = greySpecStep s x := by
  simp only [greyStep, greySpecStep, Prod.mk.injEq, GreyLocals.mk.injEq]
  refine ⟨by ring_nf, by ring_nf, by ring_nf⟩

/-- C9: `generateGreyNoise` scales every white draw by `0.7 * 0.6` and
applies the spec's two-pole blend from zero states, and the orchestrator's
`grey` branch threads no state: each chunk iteration is an independent
`generateGreyNoise` call restarting the blend states at zero, whatever state
object is in flight. -/
theorem grey_spec_and_chunk_reset :
    (∀ us : List ℚ, generateGreyNoise us = greySpecNoise (us.map (fun u => u * 2 - 1))) ∧
    (∀ (csize n : ℕ) (ds : List ℚ) (s : NoiseState),
      runChunksWith "grey" csize n ds s = Except.ok (greyChunked csize n ds)) := by
  constructor
  · intro us
    have hmap : (us.map (fun u => u * 2 - 1)).map (fun r => (r * 0.5) * (0.7 * 0.6)) =
        us.map (fun u => ((u * 2 - 1) * 0.5) * 0.7 * 0.6) := by
      rw [List.map_map]
      refine List.map_congr_left ?_
      intro u _
      simp only [Function.comp_apply]
      ring
    have hrun := runFilter_congr greyStep greySpecStep greyStep_eq_spec
      (us.map (fun u => ((u * 2 - 1) * 0.5) * 0.7 * 0.6)) ⟨0, 0⟩
    simp only [generateGreyNoise, greySpecNoise, hmap, hrun]
  · intro csize n
    induction n with
    | zero => intro ds s; rfl
    | succ n ih =>
      intro ds s
      simp only [runChunksWith, chunkOf_grey, greyChunked, ih, Except.map]

/-! ## C7: the normalizer -/

lemma fold_step_eq_max (m x : ℚ) :
    (if |x| > m then |x| else m) = max m |x| := by
  rcases le_or_lt |x| m with h | h
  · rw [if_neg (not_lt.2 h), max_eq_left h]
  · rw [if_pos h, max_eq_right h.le]

lemma maxAbs_eq_foldmax (xs : List ℚ) :
    ∀ b : ℚ, xs.foldl (fun m x => if |x| > m then |x| else m) b =
      xs.foldl (fun m x => max m |x|) b := by
  induction xs with
  | nil => intro b; rfl
  | cons x xs ih => intro b; simp only [List.foldl_cons, fold_step_eq_max, ih]

lemma foldmax_scale (c : ℚ) (hc : 0 ≤ c) (xs : List ℚ) :
    ∀ b : ℚ, (xs.map (fun x => x * c)).foldl (fun m x => max m |x|) (b * c) =
      xs.foldl (fun m x => max m |x|) b * c := by
  induction xs with
  | nil => intro b; rfl
  | cons x xs ih =>
    intro b
    simp only [List.map_cons, List.foldl_cons]
    rw [abs_mul, abs_of_nonneg hc, ← max_mul_of_nonneg _ _ hc, ih]

lemma maxAbs_scale (c : ℚ) (hc : 0 ≤ c) (xs : List ℚ) :
    maxAbs (xs.map (fun x => x * c)) = maxAbs xs * c := by
  have h := foldmax_scale c hc xs 0
  rw [zero_mul] at h
  simp only [maxAbs, maxAbs_eq_foldmax]
  exact h

/-- C7: `normalizeSamples` rescales every sample by `0.99 / max` exactly when
the maximum absolute value exceeds `0.99` and leaves the buffer unchanged
otherwise, and it is idempotent: a second application is a no-op. -/
theorem normalize_idempotent :
    ∀ xs : List ℚ,
      normalizeSamples xs =
        (if maxAbs xs > 0.99 then xs.map (fun x => x * (0.99 / maxAbs xs)) else xs) ∧
      normalizeSamples (normalizeSamples xs) = normalizeSamples xs := by
  intro xs
  refine ⟨rfl, ?_⟩
  by_cases h : maxAbs xs > 0.99
  · have hm : (0 : ℚ) < maxAbs xs := lt_trans (by norm_num) h
    have hc : (0 : ℚ) ≤ 0.99 / maxAbs xs := by positivity
    have hy : normalizeSamples xs = xs.map (fun x => x * (0.99 / maxAbs xs)) := by
      simp only [normalizeSamples, if_pos h]
    have h2 : maxAbs (xs.map (fun x => x * (0.99 / maxAbs xs))) = 0.99 := by
      rw [maxAbs_scale _ hc, mul_comm, div_mul_cancel₀ _ hm.ne']
    rw [hy]
    simp only [normalizeSamples, h2]
    norm_num
  · have hy : normalizeSamples xs = xs := by simp only [normalizeSamples, if_neg h]
    rw [hy, hy]

/-! ## C10: white-noise samples are bounded and survive normalization -/

lemma foldmax_le (B : ℚ) (xs : List ℚ) (hB : ∀ x ∈ xs, |x| ≤ B) :
    ∀ b : ℚ, b ≤ B → xs.foldl (fun m x => max m |x|) b ≤ B := by
  induction xs with
  | nil => intro b hb; exact hb
  | cons x xs ih =>
    intro b hb
    simp only [List.foldl_cons]
    exact ih (fun y hy => hB y (List.mem_cons_of_mem x hy)) _
      (max_le hb (hB x (List.mem_cons_self x xs)))

/-- C10: every sample the White filter produces from draws in `[0, 1]`
(i.e. uniform random-source values in `[-1, 1]`) lies in `[-1/2, 1/2]`, so
the maximum absolute value never exceeds `0.99` and the normalizer leaves a
white-noise buffer unchanged. -/
theorem white_bounded_normalize_noop :
    ∀ us : List ℚ, (∀ u ∈ us, 0 ≤ u ∧ u ≤ 1) →
      (∀ x ∈ generateWhiteNoise us, -(1/2) ≤ x ∧ x ≤ 1/2) ∧
      maxAbs (generateWhiteNoise us) ≤ 0.99 ∧
      normalizeSamples (generateWhiteNoise us) = generateWhiteNoise us := by
  intro us h
  have hbound : ∀ x ∈ generateWhiteNoise us, |x| ≤ 1/2 := by
    intro x hx
    simp only [generateWhiteNoise, List.mem_map] at hx
    obtain ⟨u, hu, rfl⟩ := hx
    obtain ⟨h0, h1⟩ := h u hu
    rw [abs_le]
    constructor <;> nlinarith
  have hmax : maxAbs (generateWhiteNoise us) ≤ 1/2 := by
    rw [maxAbs, maxAbs_eq_foldmax]
    exact foldmax_le (1/2) _ hbound 0 (by norm_num)
  have hmax99 : maxAbs (generateWhiteNoise us) ≤ 0.99 := le_trans hmax (by norm_num)
  refine ⟨?_, hmax99, ?_⟩
  · intro x hx
    have := hbound x hx
    rw [abs_le] at this
    exact ⟨le_trans (by norm_num) this.1, this.2⟩
  · simp only [normalizeSamples, if_neg (not_lt.2 hmax99)]

/-- Witness for C10 at concrete draws `[0, 1/2, 1]`. -/
theorem white_bounded_normalize_noop_witness :
    (∀ u ∈ ([0, 1/2, 1] : List ℚ), 0 ≤ u ∧ u ≤ 1) ∧
    (∀ x ∈ generateWhiteNoise [0, 1/2, 1], -(1/2) ≤ x ∧ x ≤ 1/2) ∧
    maxAbs (generateWhiteNoise [0, 1/2, 1]) ≤ 0.99 ∧
    normalizeSamples (generateWhiteNoise [0, 1/2, 1]) = generateWhiteNoise [0, 1/2, 1] := by
  have h : ∀ u ∈ ([0, 1/2, 1] : List ℚ), 0 ≤ u ∧ u ≤ 1 := by
    intro u hu
    fin_cases hu <;> norm_num
  exact ⟨h, (white_bounded_normalize_noop [0, 1/2, 1] h).1,
    (white_bounded_normalize_noop [0, 1/2, 1] h).2.1,
    (white_bounded_normalize_noop [0, 1/2, 1] h).2.2⟩

/-! ## C5: the 16-bit PCM conversion never leaves the signed 16-bit range -/

/-- C5: for every input sample, the encoder's conversion — clamp to
`[-1, 1]`, multiply negatives by `0x8000` and non-negatives by `0x7FFF`,
truncate — yields an integer in `[-32768, 32767]`; in particular the
non-negative path never exceeds `32767`. -/
theorem pcm_conversion_range :
    ∀ q : ℚ, -32768 ≤ convSample q ∧ convSample q ≤ 32767 := by
  intro q
  have hc1 : (-1 : ℚ) ≤ max (-1) (min 1 q) := le_max_left _ _
  have hc2 : max (-1) (min 1 q) ≤ 1 := max_le (by norm_num) (min_le_left _ _)
  rcases lt_or_ge (max (-1) (min 1 q)) 0 with hneg | hpos
  · have hlt : max (-1) (min 1 q) * (0x8000 : ℚ) < 0 :=
      mul_neg_of_neg_of_pos hneg (by norm_num)
    have hval : convSample q = ⌈max (-1) (min 1 q) * (0x8000 : ℚ)⌉ := by
      simp only [convSample, ratTrunc, if_pos hneg, if_pos hlt]
    constructor
    · rw [hval]
      have hle : ((-32768 : ℤ) : ℚ) ≤ max (-1) (min 1 q) * (0x8000 : ℚ) := by
        push_cast
        nlinarith
      calc (-32768 : ℤ) = ⌈((-32768 : ℤ) : ℚ)⌉ := (Int.ceil_intCast _).symm
        _ ≤ _ := Int.ceil_mono hle
    · rw [hval]
      have h0 : ⌈max (-1) (min 1 q) * (0x8000 : ℚ)⌉ ≤ 0 :=
        Int.ceil_le.2 (by exact_mod_cast hlt.le)
      omega
  · have hge : (0 : ℚ) ≤ max (-1) (min 1 q) * (0x7FFF : ℚ) :=
      mul_nonneg hpos (by norm_num)
    have hval : convSample q = ⌊max (-1) (min 1 q) * (0x7FFF : ℚ)⌋ := by
      simp only [convSample, ratTrunc, if_neg (not_lt.2 hpos), if_neg (not_lt.2 hge)]
    constructor
    · rw [hval]
      have h0 : (0 : ℤ) ≤ ⌊max (-1) (min 1 q) * (0x7FFF : ℚ)⌋ :=
        Int.le_floor.2 (by exact_mod_cast hge)
      omega
    · rw [hval]
      have hle : max (-1) (min 1 q) * (0x7FFF : ℚ) ≤ ((32767 : ℤ) : ℚ) := by
        push_cast
        nlinarith
      calc ⌊max (-1) (min 1 q) * (0x7FFF : ℚ)⌋ ≤ ⌊((32767 : ℤ) : ℚ)⌋ := Int.floor_mono hle
        _ = 32767 := Int.floor_intCast _

/-! ## C6: the 44-byte RIFF/WAVE header -/

/-- The fields a decoder reads back from a 44-byte WAV header. -/
structure WavHeader where
  riffTag : List ℕ
  riffSize : ℕ
  waveTag : List ℕ
  fmtTag : List ℕ
  fmtSize : ℕ
  audioFormat : ℕ
  numChannels : ℕ
  sampleRate : ℕ
  byteRate : ℕ
  blockAlign : ℕ
  bitsPerSample : ℕ
  dataTag : List ℕ
  dataBytes : ℕ
  deriving DecidableEq, Repr

/-- Decode the §6 header layout from a byte stream: four tag bytes, then the
little-endian uint32/uint16 fields at offsets 4, 16, 20, 22, 24, 28, 32, 34
and 40.  Returns `none` if fewer than 44 bytes are present. -/
def decodeWavHeader (bs : List ℕ) : Option WavHeader :=
  match bs with
  | a0 :: a1 :: a2 :: a3 :: b0 :: b1 :: b2 :: b3 ::
    c0 :: c1 :: c2 :: c3 :: d0 :: d1 :: d2 :: d3 ::
    e0 :: e1 :: e2 :: e3 :: f0 :: f1 :: g0 :: g1 ::
    h0 :: h1 :: h2 :: h3 :: i0 :: i1 :: i2 :: i3 ::
    j0 :: j1 :: k0 :: k1 ::
    l0 :: l1 :: l2 :: l3 :: m0 :: m1 :: m2 :: m3 :: _rest =>
    some ⟨[a0, a1, a2, a3],
          b0 + 256 * b1 + 65536 * b2 + 16777216 * b3,
          [c0, c1, c2, c3],
          [d0, d1, d2, d3],
          e0 + 256 * e1 + 65536 * e2 + 16777216 * e3,
          f0 + 256 * f1,
          g0 + 256 * g1,
          h0 + 256 * h1 + 65536 * h2 + 16777216 * h3,
          i0 + 256 * i1 + 65536 * i2 + 16777216 * i3,
          j0 + 256 * j1,
          k0 + 256 * k1,
          [l0, l1, l2, l3],
          m0 + 256 * m1 + 65536 * m2 + 16777216 * m3⟩
  | _ => none

lemma strBytes_RIFF : strBytes "RIFF" = [82, 73, 70, 70] := rfl

lemma strBytes_WAVE : strBytes "WAVE" = [87, 65, 86, 69] := rfl

lemma strBytes_fmt : strBytes "fmt " = [102, 109, 116, 32] := rfl

lemma strBytes_data : strBytes "data" = [100, 97, 116, 97] := rfl

/-- C6: for every sample buffer and every representable sample rate, the
encoder emits exactly the §6 header — `RIFF` tag, riff size `36 + dataBytes`,
`WAVE`, `fmt `, fmt size 16, PCM tag 1, channel count 1, the given sample
rate, byte rate `sampleRate * 2`, block align 2, 16 bits per sample, `data`
tag, `dataBytes = 2 * sampleCount`, all multi-byte fields little-endian — so
decoding the header returns the exact sample rate, channel count 1, bit
depth 16 and data length supplied at encoding time. -/
theorem wav_header_roundtrip :
    ∀ (samples : List ℚ) (sampleRate : ℕ),
      sampleRate * 2 < 4294967296 → 36 + samples.length * 2 < 4294967296 →
      decodeWavHeader (createWavFile samples sampleRate) =
        some ⟨[82, 73, 70, 70], 36 + samples.length * 2, [87, 65, 86, 69],
              [102, 109, 116, 32], 16, 1, 1, sampleRate, sampleRate * 2, 2, 16,
              [100, 97, 116, 97], samples.length * 2⟩ := by
  intro samples r h1 h2
  simp only [createWavFile, strBytes_RIFF, strBytes_WAVE, strBytes_fmt, strBytes_data,
    u32le, u16le, CHANNELS, mul_one, List.cons_append, List.nil_append]
  simp only [decodeWavHeader, Option.some.injEq, WavHeader.mk.injEq, and_true, true_and]
  omega

/-- Witness for C6 at a concrete two-sample buffer and rate 44100. -/
theorem wav_header_roundtrip_witness :
    (44100 * 2 < 4294967296) ∧ (36 + ([1/2, -1/2] : List ℚ).length * 2 < 4294967296) ∧
    decodeWavHeader (createWavFile [1/2, -1/2] 44100) =
      some ⟨[82, 73, 70, 70], 40, [87, 65, 86, 69], [102, 109, 116, 32], 16, 1, 1,
            44100, 88200, 2, 16, [100, 97, 116, 97], 4⟩ := by
  refine ⟨by norm_num, by norm_num, ?_⟩
  have h := wav_header_roundtrip [1/2, -1/2] 44100 (by norm_num) (by norm_num)
  simpa using h

/-! ## Length preservation through the pipeline (towards C4) -/

lemma generateWhiteNoise_length (ds : List ℚ) :
    (generateWhiteNoise ds).length = ds.length := by
  simp [generateWhiteNoise]

lemma generateGreyNoise_length (ds : List ℚ) :
    (generateGreyNoise ds).length = ds.length := by
  simp [generateGreyNoise, runFilter_length]

lemma chunkOf_known_length (t : String) (ht : isKnownType t = true) (ds : List ℚ)
    (s : NoiseState) :
    ∃ y s2, chunkOf t ds s = some (y, s2) ∧ y.length = ds.length := by
  simp only [isKnownType, Bool.or_eq_true, beq_iff_eq] at ht
  rcases ht with ((((((rfl | rfl) | rfl) | rfl) | rfl) | rfl) | rfl)
  · exact ⟨_, _, chunkOf_white ds s, generateWhiteNoise_length ds⟩
  · exact ⟨_, _, chunkOf_pink ds s, runFilter_length pinkStep ds _⟩
  · exact ⟨_, _, chunkOf_brown ds s, runFilter_length brownStep ds _⟩
  · exact ⟨_, _, chunkOf_blue ds s, runFilter_length blueStep ds _⟩
  · exact ⟨_, _, chunkOf_violet ds s, runFilter_length violetStep ds _⟩
  · exact ⟨_, _, chunkOf_grey ds s, generateGreyNoise_length ds⟩
  · exact ⟨_, _, chunkOf_orange ds s, runFilter_length orangeStep ds _⟩

lemma runChunksWith_ok_length (t : String) (ht : isKnownType t = true) (csize : ℕ) :
    ∀ (n : ℕ) (ds : List ℚ) (s : NoiseState), ds.length ≤ csize * n →
      ∃ y, runChunksWith t csize n ds s = Except.ok y ∧ y.length = ds.length := by
  intro n
  induction n with
  | zero =>
    intro ds s hlen
    have hds : ds = [] := List.eq_nil_of_length_eq_zero (by omega)
    subst hds
    exact ⟨[], rfl, rfl⟩
  | succ n ih =>
    intro ds s hlen
    obtain ⟨y1, s1, h1, hlen1⟩ := chunkOf_known_length t ht (ds.take csize) s
    have hlen2 : (ds.drop csize).length ≤ csize * n := by
      simp only [List.length_drop]
      have hmul : csize * (n + 1) = csize * n + csize := Nat.mul_succ csize n
      omega
    obtain ⟨y2, h2, hlen2e⟩ := ih (ds.drop csize) s1 hlen2
    refine ⟨y1 ++ y2, ?_, ?_⟩
    · simp only [runChunksWith, h1, h2, Except.map]
    · simp only [List.length_append, hlen1, hlen2e, List.length_take, List.length_drop]
      omega

lemma normalizeSamples_length (xs : List ℚ) :
    (normalizeSamples xs).length = xs.length := by
  simp only [normalizeSamples]
  split <;> simp

lemma encodeSample_length (q : ℚ) : (encodeSample q).length = 2 := rfl

lemma pcmData_length (xs : List ℚ) :
    ((xs.map encodeSample).flatten).length = 2 * xs.length := by
  induction xs with
  | nil => rfl
  | cons x xs ih =>
    simp only [List.map_cons, List.flatten_cons, List.length_append, ih,
      encodeSample_length, List.length_cons]
    omega

lemma createWavFile_length (xs : List ℚ) (r : ℕ) :
    (createWavFile xs r).length = 44 + 2 * xs.length := by
  simp only [createWavFile, List.length_append, pcmData_length,
    strBytes_RIFF, strBytes_WAVE, strBytes_fmt, strBytes_data, u32le, u16le]
  simp only [List.length_cons, List.length_nil]

/-! ## C4: buffer length and encoded length -/

deriving instance DecidableEq for Except

/-- C4 counterexample: the sample count is `floor(r * d)`, not `round(r * d)`
— at `d = 13/220500` seconds (so `r * d = 2.6`) the code produces 2 samples
while `round` gives 3 — and the encoded length of a 44100-sample buffer is
`44 + 2 * 44100 = 88244` bytes, not the claimed 44,144. -/
theorem sample_count_floor_not_round_cex :
    ((generateSamples "white" (13/220500) (fun _ => 0)).map List.length =
       Except.ok 2 ∧
     round ((44100 : ℚ) * (13/220500)) = 3) ∧
    (createWavFile (List.replicate 44100 0) 44100).length = 88244 := by
  refine ⟨⟨?_, ?_⟩, ?_⟩
  · have h3 : ⌊(SAMPLE_RATE : ℚ) * (13/220500)⌋ = 2 := by
      norm_num [SAMPLE_RATE]
    simp only [generateSamples, h3]
    decide
  · norm_num [round_eq]
  · rw [createWavFile_length]
    norm_num

/-- C4 (amended): for every supported noise type and every non-negative
duration, `generateSamples` produces exactly `⌊r * d⌋` samples (the code uses
`Math.floor`, which agrees with `round` whenever `r * d` is integral, as in
the concrete scenario), and the encoded output has exactly
`44 + 2 * sampleCount` bytes. -/
theorem generate_length_spec :
    ∀ t : String, isKnownType t = true → ∀ d : ℚ, 0 ≤ d → ∀ draws : ℕ → ℚ,
      (generateSamples t d draws).map List.length =
        Except.ok (⌊(SAMPLE_RATE : ℚ) * d⌋.toNat) ∧
      (generateNoise t d draws).map List.length =
        Except.ok (44 + 2 * ⌊(SAMPLE_RATE : ℚ) * d⌋.toNat) := by
  intro t ht d hd draws
  have h0 : ¬ (⌊(SAMPLE_RATE : ℚ) * d⌋ < 0) :=
    not_lt.2 (Int.floor_nonneg.2 (mul_nonneg (by positivity) hd))
  obtain ⟨y, hy, hylen⟩ := runChunksWith_ok_length t ht CHUNK_SIZE
    ((⌊(SAMPLE_RATE : ℚ) * d⌋.toNat + CHUNK_SIZE - 1) / CHUNK_SIZE)
    ((List.range ⌊(SAMPLE_RATE : ℚ) * d⌋.toNat).map draws) NoiseState.null
    (by simp only [List.length_map, List.length_range]; exact total_le_chunks _)
  simp only [List.length_map, List.length_range] at hylen
  have hgen : generateSamples t d draws = Except.ok y := by
    simp only [generateSamples]
    rw [if_neg h0]
    exact hy
  constructor
  · rw [hgen]
    simp [Except.map, hylen]
  · simp only [generateNoise, hgen, Except.map]
    simp [createWavFile_length, normalizeSamples_length, hylen]

/-- Witness for C4 at the concrete scenario: white noise, 1 second, rate
44100 → 44100 samples and 88,244 encoded bytes. -/
theorem generate_length_spec_witness :
    (isKnownType "white" = true) ∧ ((0 : ℚ) ≤ 1) ∧
    (generateSamples "white" 1 (fun _ => 0)).map List.length =
      Except.ok (⌊(SAMPLE_RATE : ℚ) * 1⌋.toNat) ∧
    (generateNoise "white" 1 (fun _ => 0)).map List.length =
      Except.ok (44 + 2 * ⌊(SAMPLE_RATE : ℚ) * 1⌋.toNat) ∧
    ⌊(SAMPLE_RATE : ℚ) * 1⌋.toNat = 44100 ∧
    44 + 2 * ⌊(SAMPLE_RATE : ℚ) * 1⌋.toNat = 88244 := by
  have h := generate_length_spec "white" rfl 1 (by norm_num) (fun _ => 0)
  have hfl : ⌊(SAMPLE_RATE : ℚ) * 1⌋ = 44100 := by norm_num [SAMPLE_RATE]
  exact ⟨rfl, by norm_num, h.1, h.2, by rw [hfl]; decide, by rw [hfl]; decide⟩

/-! ## C2: the unknown-noise-type check happens inside the chunk loop,
after the full buffer allocation -/

lemma unknown_chunkOf (t : String) (h : isKnownType t = false) (ds : List ℚ)
    (s : NoiseState) : chunkOf t ds s = none := by
  simp only [isKnownType, Bool.or_eq_false_iff, beq_eq_false_iff_ne, ne_eq] at h
  obtain ⟨⟨⟨⟨⟨⟨h1, h2⟩, h3⟩, h4⟩, h5⟩, h6⟩, h7⟩ := h
  simp only [chunkOf, if_neg h1, if_neg h2, if_neg h3, if_neg h4, if_neg h5,
    if_neg h6, if_neg h7]

lemma chunks_pos_succ (total : ℕ) (h : 0 < total) :
    (total + CHUNK_SIZE - 1) / CHUNK_SIZE =
      ((total + CHUNK_SIZE - 1) / CHUNK_SIZE - 1) + 1 := by
  have h1 : 1 ≤ (total + CHUNK_SIZE - 1) / CHUNK_SIZE := by
    simp only [CHUNK_SIZE]
    omega
  omega

lemma runChunksWith_unknown_succ (t : String) (h : isKnownType t = false)
    (m : ℕ) (ds : List ℚ) (s : NoiseState) :
    runChunksWith t CHUNK_SIZE (m + 1) ds s =
      Except.error GenError.unknownNoiseType := by
  simp only [runChunksWith, unknown_chunkOf t h]

lemma generateSamples_eq_runChunks (t : String) (d : ℚ) (draws : ℕ → ℚ)
    (h0 : ¬ (⌊(SAMPLE_RATE : ℚ) * d⌋ < 0)) :
    generateSamples t d draws =
      runChunksWith t CHUNK_SIZE
        ((⌊(SAMPLE_RATE : ℚ) * d⌋.toNat + CHUNK_SIZE - 1) / CHUNK_SIZE)
        ((List.range ⌊(SAMPLE_RATE : ℚ) * d⌋.toNat).map draws) NoiseState.null := by
  simp only [generateSamples]
  rw [if_neg h0]

lemma generateSamples_unknown (t : String) (h : isKnownType t = false) (d : ℚ)
    (draws : ℕ → ℚ) (hpos : 0 < ⌊(SAMPLE_RATE : ℚ) * d⌋) :
    generateSamples t d draws = Except.error GenError.unknownNoiseType := by
  rw [generateSamples_eq_runChunks t d draws (by omega)]
  rw [chunks_pos_succ _ (by omega)]
  exact runChunksWith_unknown_succ t h _ _ _

lemma eventLoop_unknown_succ (t : String) (h : isKnownType t = false) (m : ℕ) :
    eventLoop t (m + 1) = [GenEvent.throwUnknown] := by
  simp only [eventLoop, h, Bool.false_eq_true, if_false]

lemma generateNoiseEvents_eq (t : String) (d : ℚ)
    (h0 : ¬ (⌊(SAMPLE_RATE : ℚ) * d⌋ < 0)) :
    generateNoiseEvents t d =
      GenEvent.allocSamples ⌊(SAMPLE_RATE : ℚ) * d⌋.toNat ::
        eventLoop t ((⌊(SAMPLE_RATE : ℚ) * d⌋.toNat + CHUNK_SIZE - 1) / CHUNK_SIZE) := by
  simp only [generateNoiseEvents]
  rw [if_neg h0]

/-- C2 (amended): for an unsupported noise-type identifier and a positive
sample count, generation fails with the unknown-noise-type error, thrown by
the `switch` inside the first chunk iteration — but only after the full
sample buffer has been allocated: the run's event trace is
`[allocSamples totalSamples, throwUnknown]`, not a failure before
allocation.  (The check sits inside the per-chunk loop, so with zero chunks
it never runs at all.) -/
theorem unknown_type_fails_after_alloc :
    ∀ (t : String) (d : ℚ) (draws : ℕ → ℚ),
      isKnownType t = false → 0 < ⌊(SAMPLE_RATE : ℚ) * d⌋ →
      generateSamples t d draws = Except.error GenError.unknownNoiseType ∧
      generateNoiseEvents t d =
        [GenEvent.allocSamples ⌊(SAMPLE_RATE : ℚ) * d⌋.toNat,
         GenEvent.throwUnknown] := by
  intro t d draws hk hpos
  refine ⟨generateSamples_unknown t hk d draws hpos, ?_⟩
  rw [generateNoiseEvents_eq t d (by omega)]
  rw [chunks_pos_succ _ (by omega)]
  rw [eventLoop_unknown_succ t hk]

/-- C2 counterexample: at `generate('unknown', 5, 44100)` the failure does
occur, but the claim that no sample buffer is allocated is false — the trace
shows the full 220500-sample buffer allocated before the throw. -/
theorem unknown_type_alloc_before_throw_cex :
    generateNoiseEvents "unknown" 5 =
      [GenEvent.allocSamples 220500, GenEvent.throwUnknown] ∧
    generateSamples "unknown" 5 (fun _ => 0) =
      Except.error GenError.unknownNoiseType := by
  have h1 : isKnownType "unknown" = false := rfl
  have h2 : ⌊(SAMPLE_RATE : ℚ) * 5⌋ = 220500 := by norm_num [SAMPLE_RATE]
  constructor
  · simp only [generateNoiseEvents, h2]
    decide
  · exact generateSamples_unknown "unknown" h1 5 (fun _ => 0) (by omega)

/-- Witness for C2's amended theorem at `t = "unknown"`, `d = 5` seconds. -/
theorem unknown_type_fails_after_alloc_witness :
    (isKnownType "unknown" = false) ∧ (0 < ⌊(SAMPLE_RATE : ℚ) * 5⌋) ∧
    generateSamples "unknown" 5 (fun _ => 0) =
      Except.error GenError.unknownNoiseType ∧
    generateNoiseEvents "unknown" 5 =
      [GenEvent.allocSamples ⌊(SAMPLE_RATE : ℚ) * 5⌋.toNat,
       GenEvent.throwUnknown] := by
  have hpos : 0 < ⌊(SAMPLE_RATE : ℚ) * 5⌋ := by norm_num [SAMPLE_RATE]
  have h := unknown_type_fails_after_alloc "unknown" 5 (fun _ => 0) rfl hpos
  exact ⟨rfl, hpos, h.1, h.2⟩

/-! ## C3: a zero sample count is not rejected -/

/-- C3 counterexample: `generate('brown', 0, 44100)` does not fail at all —
it succeeds and produces the 44-byte header-only file (the code has no
`InvalidDuration` check). -/
theorem zero_duration_no_failure_cex :
    (generateNoise "brown" 0 (fun _ => 0)).map List.length = Except.ok 44 := by
  have h0 : ⌊(SAMPLE_RATE : ℚ) * 0⌋ = 0 := by norm_num
  have hnorm : normalizeSamples [] = ([] : List ℚ) := by
    simp only [normalizeSamples, List.map_nil, ite_self]
  have hs : generateSamples "brown" 0 (fun _ => 0) = Except.ok [] := by
    simp only [generateSamples, h0]
    decide
  simp only [generateNoise, hs, Except.map, hnorm]
  decide

/-- C3 (amended): the core performs no non-positive sample-count check.
A zero sample count yields a successful run with an empty sample buffer and
a header-only 44-byte encoded output; a negative sample count fails only at
buffer allocation with a `RangeError`, not with `InvalidDuration` (which
does not exist in the code). -/
theorem zero_duration_header_only :
    generateSamples "brown" 0 (fun _ => 0) = Except.ok [] ∧
    generateNoise "brown" 0 (fun _ => 0) =
      Except.ok (createWavFile [] SAMPLE_RATE) ∧
    generateNoise "brown" (-1) (fun _ => 0) = Except.error GenError.rangeError := by
  have h0 : ⌊(SAMPLE_RATE : ℚ) * 0⌋ = 0 := by norm_num
  have hneg : ⌊(SAMPLE_RATE : ℚ) * (-1)⌋ = -44100 := by norm_num [SAMPLE_RATE]
  have hnorm : normalizeSamples [] = ([] : List ℚ) := by
    simp only [normalizeSamples, List.map_nil, ite_self]
  have hs : generateSamples "brown" 0 (fun _ => 0) = Except.ok [] := by
    simp only [generateSamples, h0]
    decide
  refine ⟨hs, ?_, ?_⟩
  · simp only [generateNoise, hs, Except.map, hnorm]
  · simp only [generateNoise, generateSamples, hneg]
    decide
